import Mathlib

/-! Dual tone DDS generator (`src/main.cpp`).

A shallow embedding of the direct-digital-synthesis core of the dual tone
generator: the sine table, the phase-increment computation, the Timer2
overflow handler, `setup` and `loop`.

Machine integers are natural numbers with the reduction modulo `2^w` written
out wherever the C code truncates: `uint32_t` arithmetic is taken `% 2^32`,
the `uint16_t` tick counter `% 2^16`, and conversions to `uint8_t` `% 256`.
-/

set_option maxRecDepth 100000

namespace DualTone

/-! ## Constants and the sine table -/

def PIN_LED : Nat := 13
def PIN_ISR_TIMING : Nat := 7
def PIN_LOOP_TIMING : Nat := 6

def PIN_TONE_A : Nat := 3
def PIN_TONE_B : Nat := 11

/-- Sine table, `const PROGMEM uint8_t SIN_TABLE[]`, entry by entry. -/
def SIN_TABLE : List Nat := [
  127,130,133,136,139,143,146,149,152,155,158,161,164,167,170,173,176,178,181,184,187,190,192,195,198,200,203,205,208,210,212,215,217,219,221,223,225,227,229,231,233,234,236,238,239,240,
  242,243,244,245,247,248,249,249,250,251,252,252,253,253,253,254,254,254,254,254,254,254,253,253,253,252,252,251,250,249,249,248,247,245,244,243,242,240,239,238,236,234,233,231,229,227,225,223,
  221,219,217,215,212,210,208,205,203,200,198,195,192,190,187,184,181,178,176,173,170,167,164,161,158,155,152,149,146,143,139,136,133,130,127,124,121,118,115,111,108,105,102,99,96,93,90,87,84,81,78,
  76,73,70,67,64,62,59,56,54,51,49,46,44,42,39,37,35,33,31,29,27,25,23,21,20,18,16,15,14,12,11,10,9,7,6,5,5,4,3,2,2,1,1,1,0,0,0,0,0,0,0,1,1,1,2,2,3,4,5,5,6,7,9,10,11,12,14,15,16,18,20,21,23,25,27,29,31,
  33,35,37,39,42,44,46,49,51,54,56,59,62,64,67,70,73,76,78,81,84,87,90,93,96,99,102,105,108,111,115,118,121,124
]

/-- Byte read from program memory at `SIN_TABLE + i`.  The read is modelled as
fallible: an offset past the end of the table has no defined value. -/
def pgm_read_byte_near (i : Nat) : Option Nat := SIN_TABLE[i]?

/-! ## Bit manipulation on 8-bit special function registers -/

/-- The macro `cbi(sfr, bit)`: `sfr &= ~_BV(bit)` on a byte register. -/
def cbi (sfr bit : Nat) : Nat := sfr &&& (0xFF ^^^ (1 <<< bit))

/-- The macro `sbi(sfr, bit)`: `sfr |= _BV(bit)` on a byte register. -/
def sbi (sfr bit : Nat) : Nat := (sfr ||| (1 <<< bit)) % 256

/-! ## Shared state -/

/-- The variables shared between the interrupt handler and the main loop,
together with the peripheral registers the handler and the loop write to. -/
structure State where
  /-- Tick counter, `uint16_t`. -/
  counter : Nat
  /-- Phase accumulator of channel A, `uint32_t`. -/
  phaccu_a : Nat
  /-- Phase increment of channel A, `uint32_t`. -/
  phinc_a : Nat
  /-- Phase accumulator of channel B, `uint32_t`. -/
  phaccu_b : Nat
  /-- Phase increment of channel B, `uint32_t`. -/
  phinc_b : Nat
  /-- Timer value sampled when the handler starts, `uint32_t`. -/
  latest_start : Nat
  /-- Timer value sampled when the handler ends, `uint32_t`. -/
  latest_stop : Nat
  /-- Output compare register of channel A (PWM duty cycle), 8 bits. -/
  OCR2A : Nat
  /-- Output compare register of channel B (PWM duty cycle), 8 bits. -/
  OCR2B : Nat
  /-- Port D data register, 8 bits (timing pins for the oscilloscope). -/
  PORTD : Nat
  /-- Everything written to the serial port so far, oldest first. -/
  Serial : List String
  deriving DecidableEq, Repr

/-- State of the statically allocated variables at reset: all zero. -/
def State.reset : State :=
  { counter := 0, phaccu_a := 0, phinc_a := 0, phaccu_b := 0, phinc_b := 0,
    latest_start := 0, latest_stop := 0, OCR2A := 0, OCR2B := 0, PORTD := 0,
    Serial := [] }

/-! ## Phase increment -/

/-- The local constant `PHASE_STEPS_PER_HZ` of `FrequencyToPhaseIncrement`. -/
def PHASE_STEPS_PER_HZ : Nat := 68719

/-- The function `uint32_t FrequencyToPhaseIncrement(uint32_t desired_freq)`:
a 32-bit product. -/
def FrequencyToPhaseIncrement (desired_freq : Nat) : Nat :=
  (PHASE_STEPS_PER_HZ * desired_freq) % 2 ^ 32

/-! ## The tick handler -/

/-- The table offset the handler derives from an accumulator:
`uint8_t accu_increment = (phaccu >> 24);`. -/
def accuIndex (phaccu : Nat) : Nat := (phaccu >>> 24) % 256

/-- The handler `ISR(TIMER2_OVF_vect)`.  `tcnt_start` and `tcnt_stop` are the two values
read from the free-running 8-bit timer register `TCNT2`, at the start and at
the end of the handler.  The result is `none` when a table read falls outside
`SIN_TABLE`. -/
def ISR (tcnt_start tcnt_stop : Nat) (s : State) : Option State := do
  let s := { s with PORTD := sbi s.PORTD PIN_ISR_TIMING }
  let s := { s with latest_start := tcnt_start % 256 }
  -- increment the phase accu
  let s := { s with phaccu_a := (s.phaccu_a + s.phinc_a) % 2 ^ 32 }
  let s := { s with phaccu_b := (s.phaccu_b + s.phinc_b) % 2 ^ 32 }
  let accu_increment := accuIndex s.phaccu_a
  let sample_a ← pgm_read_byte_near accu_increment
  let s := { s with OCR2A := sample_a }
  let accu_increment := accuIndex s.phaccu_b
  let sample_b ← pgm_read_byte_near accu_increment
  let s := { s with OCR2B := sample_b }
  let s := { s with counter := (s.counter + 1) % 2 ^ 16 }
  let s := { s with PORTD := cbi s.PORTD PIN_ISR_TIMING }
  let s := { s with latest_stop := tcnt_stop % 256 }
  pure s

/-- The handler run `n` times in sequence; `tcnt k` gives the two timer
values read during tick number `k` (counted from 0). -/
def runTicks (tcnt : Nat → Nat × Nat) : Nat → State → Option State
  | 0, s => some s
  | n + 1, s => (runTicks tcnt n s).bind (fun s' => ISR (tcnt n).1 (tcnt n).2 s')

/-- Observer over a run, not code of the program: the number of the first `n`
ticks at which the addition to channel A's accumulator wrapped past `2^32`,
that is, the number of full cycles channel A completed. -/
def wraps_a (tcnt : Nat → Nat × Nat) : Nat → State → Nat
  | 0, _ => 0
  | n + 1, s =>
    wraps_a tcnt n s +
      (match runTicks tcnt n s with
       | some s' => if 2 ^ 32 ≤ s'.phaccu_a + s'.phinc_a then 1 else 0
       | none => 0)

/-- Observer over a run, not code of the program: the number of the first `n`
ticks at which the addition to channel B's accumulator wrapped past `2^32`. -/
def wraps_b (tcnt : Nat → Nat × Nat) : Nat → State → Nat
  | 0, _ => 0
  | n + 1, s =>
    wraps_b tcnt n s +
      (match runTicks tcnt n s with
       | some s' => if 2 ^ 32 ≤ s'.phaccu_b + s'.phinc_b then 1 else 0
       | none => 0)

/-- Period of the index sequence for increment `p`, as the specification
gives it: `2^32 / gcd(2^32, p)`.  Not code of the program. -/
def period (p : Nat) : Nat := 2 ^ 32 / Nat.gcd (2 ^ 32) p

/-! ## `setup` and `loop` -/

/-- The function `setup()`, as far as the modelled variables go: the banner is printed,
the two timing pins are driven low, the accumulators are cleared and the
increments are set for 700 Hz and 1900 Hz.  The pin-direction and Timer2
configuration registers it also writes are not part of `State`. -/
def setup (s : State) : State :=
  let s := { s with Serial := s.Serial ++ ["Dual Tone DDS generator, version 0.2a\r\n"] }
  let s := { s with PORTD := cbi s.PORTD PIN_LOOP_TIMING }
  let s := { s with PORTD := cbi s.PORTD PIN_ISR_TIMING }
  let s := { s with phaccu_a := 0 }
  let s := { s with phaccu_b := 0 }
  let s := { s with phinc_a := FrequencyToPhaseIncrement 700 }
  let s := { s with phinc_b := FrequencyToPhaseIncrement 1900 }
  s

/-- One pass of `loop()`, not interrupted by the tick handler. -/
def loop (s : State) : State :=
  if 62500 ≤ s.counter then
    let lt := s.latest_start % 256
    let ls := s.latest_stop % 256
    let s := { s with counter := 0 }
    let s := { s with PORTD := sbi s.PORTD PIN_LOOP_TIMING }
    let s := { s with Serial := s.Serial ++ ["Timer tick ....  "] }
    let s := { s with Serial := s.Serial ++ [toString lt] }
    let s := { s with Serial := s.Serial ++ [" "] }
    let s := { s with Serial := s.Serial ++ [toString ls ++ "\r\n"] }
    let s := { s with PORTD := cbi s.PORTD PIN_LOOP_TIMING }
    s
  else s

/-! ## Sample states -/

/-- A state that differs from `setup State.reset` in channel A only, used to
exercise the independence of channel B. -/
def stateOtherA : State :=
  { setup State.reset with phaccu_a := 123456789, phinc_a := 987654321, counter := 17 }

/-- A state that differs from `setup State.reset` in channel B only. -/
def stateOtherB : State :=
  { setup State.reset with phaccu_b := 4000000000, phinc_b := 555555555, counter := 40000 }

/-! ## Basic facts about the table and the handler -/

theorem SIN_TABLE_length : SIN_TABLE.length = 256 := by decide

theorem pgm_read_byte_near_of_lt {i : Nat} (h : i < 256) :
    pgm_read_byte_near i = some (SIN_TABLE.getD i 0) := by
  have hl : i < SIN_TABLE.length := by rw [SIN_TABLE_length]; exact h
  simp [pgm_read_byte_near, List.getD, List.getElem?_eq_getElem hl]

theorem accuIndex_lt (a : Nat) : accuIndex a < 256 :=
  Nat.mod_lt _ (by decide)

theorem accuIndex_of_lt {a : Nat} (h : a < 2 ^ 32) : accuIndex a = a >>> 24 := by
  unfold accuIndex
  rw [Nat.shiftRight_eq_div_pow]
  omega

/-- The handler always returns, with this state. -/
theorem ISR_eq (t0 t1 : Nat) (s : State) :
    ISR t0 t1 s = some
      { s with
        PORTD := cbi (sbi s.PORTD PIN_ISR_TIMING) PIN_ISR_TIMING
        latest_start := t0 % 256
        phaccu_a := (s.phaccu_a + s.phinc_a) % 2 ^ 32
        phaccu_b := (s.phaccu_b + s.phinc_b) % 2 ^ 32
        OCR2A := SIN_TABLE.getD (accuIndex ((s.phaccu_a + s.phinc_a) % 2 ^ 32)) 0
        OCR2B := SIN_TABLE.getD (accuIndex ((s.phaccu_b + s.phinc_b) % 2 ^ 32)) 0
        counter := (s.counter + 1) % 2 ^ 16
        latest_stop := t1 % 256 } := by
  simp only [ISR, pgm_read_byte_near_of_lt (accuIndex_lt _)]
  rfl

/-- Running the handler `n` times always returns; the increments are kept and
each accumulator has advanced by `n` increments modulo `2^32`. -/
theorem runTicks_eq (tcnt : Nat → Nat × Nat) (n : Nat) (s : State) :
    ∃ s', runTicks tcnt n s = some s' ∧
      s'.phinc_a = s.phinc_a ∧ s'.phinc_b = s.phinc_b ∧
      s'.phaccu_a = (if n = 0 then s.phaccu_a else (s.phaccu_a + n * s.phinc_a) % 2 ^ 32) ∧
      s'.phaccu_b = (if n = 0 then s.phaccu_b else (s.phaccu_b + n * s.phinc_b) % 2 ^ 32) ∧
      (0 < n → s'.OCR2A = SIN_TABLE.getD (accuIndex s'.phaccu_a) 0) ∧
      (0 < n → s'.OCR2B = SIN_TABLE.getD (accuIndex s'.phaccu_b) 0) := by
  induction n with
  | zero => exact ⟨s, rfl, rfl, rfl, by simp, by simp, by simp, by simp⟩
  | succ k ih =>
    obtain ⟨m, hm, hia, hib, ha, hb, -, -⟩ := ih
    have hrun : runTicks tcnt (k + 1) s = ISR (tcnt k).1 (tcnt k).2 m := by
      simp [runTicks, hm]
    rw [hrun, ISR_eq]
    refine ⟨_, rfl, hia, hib, ?_, ?_, fun _ => rfl, fun _ => rfl⟩
    · show (m.phaccu_a + m.phinc_a) % 2 ^ 32 = _
      rw [ha, hia, if_neg (Nat.succ_ne_zero k)]
      split
      · subst_vars; simp
      · rw [Nat.mod_add_mod]; congr 1; ring
    · show (m.phaccu_b + m.phinc_b) % 2 ^ 32 = _
      rw [hb, hib, if_neg (Nat.succ_ne_zero k)]
      split
      · subst_vars; simp
      · rw [Nat.mod_add_mod]; congr 1; ring

theorem accuIndex_mod (a : Nat) : accuIndex (a % 2 ^ 32) = accuIndex a := by
  unfold accuIndex
  rw [Nat.shiftRight_eq_div_pow, Nat.shiftRight_eq_div_pow]
  omega

theorem period_mul (p : Nat) : period p * p = 2 ^ 32 * (p / Nat.gcd (2 ^ 32) p) := by
  unfold period
  have h1 : Nat.gcd (2 ^ 32) p ∣ 2 ^ 32 := Nat.gcd_dvd_left _ _
  have h2 : Nat.gcd (2 ^ 32) p ∣ p := Nat.gcd_dvd_right _ _
  have hg : 0 < Nat.gcd (2 ^ 32) p := Nat.gcd_pos_of_pos_left _ (by norm_num)
  generalize Nat.gcd (2 ^ 32) p = g at h1 h2 hg ⊢
  obtain ⟨c, rfl⟩ := h2
  obtain ⟨d, hd⟩ := h1
  rw [hd, Nat.mul_div_cancel_left d hg, Nat.mul_div_cancel_left c hg]
  ring

/-- Advancing by a whole period leaves the accumulator's residue unchanged. -/
theorem add_period_mod (a n p : Nat) :
    (a + (n + period p) * p) % 2 ^ 32 = (a + n * p) % 2 ^ 32 := by
  have h : a + (n + period p) * p = a + n * p + 2 ^ 32 * (p / Nat.gcd (2 ^ 32) p) := by
    rw [Nat.add_mul, period_mul]; ring
  rw [h, Nat.add_mul_mod_self_left]

/-- After `n` ticks the accumulator of channel A is the `n`-fold sum reduced
modulo `2^32`, provided it started as a 32-bit value. -/
theorem runTicks_phaccu_a (tcnt : Nat → Nat × Nat) (n : Nat) (s : State)
    (ha : s.phaccu_a < 2 ^ 32) :
    ∃ s', runTicks tcnt n s = some s' ∧ s'.phinc_a = s.phinc_a ∧
      s'.phaccu_a = (s.phaccu_a + n * s.phinc_a) % 2 ^ 32 := by
  obtain ⟨m, hm, hia, -, hacc, -, -, -⟩ := runTicks_eq tcnt n s
  refine ⟨m, hm, hia, ?_⟩
  rw [hacc]
  split
  · subst_vars; simp; omega
  · rfl

theorem runTicks_phaccu_b (tcnt : Nat → Nat × Nat) (n : Nat) (s : State)
    (hb : s.phaccu_b < 2 ^ 32) :
    ∃ s', runTicks tcnt n s = some s' ∧ s'.phinc_b = s.phinc_b ∧
      s'.phaccu_b = (s.phaccu_b + n * s.phinc_b) % 2 ^ 32 := by
  obtain ⟨m, hm, -, hib, -, hacc, -, -⟩ := runTicks_eq tcnt n s
  refine ⟨m, hm, hib, ?_⟩
  rw [hacc]
  split
  · subst_vars; simp; omega
  · rfl

/-- The number of wraps of channel A is the carry out of the exact sum. -/
theorem wraps_a_eq (tcnt : Nat → Nat × Nat) (n : Nat) (s : State)
    (ha : s.phaccu_a < 2 ^ 32) (hp : s.phinc_a < 2 ^ 32) :
    wraps_a tcnt n s = (s.phaccu_a + n * s.phinc_a) / 2 ^ 32 := by
  induction n with
  | zero => simp [wraps_a]; omega
  | succ k ih =>
    obtain ⟨m, hm, hia, hacc⟩ := runTicks_phaccu_a tcnt k s ha
    rw [wraps_a, ih, hm]
    simp only [hia, hacc]
    have hk : (k + 1) * s.phinc_a = k * s.phinc_a + s.phinc_a := by ring
    rw [hk]
    generalize k * s.phinc_a = y
    split <;> omega

/-- The number of wraps of channel B is the carry out of the exact sum. -/
theorem wraps_b_eq (tcnt : Nat → Nat × Nat) (n : Nat) (s : State)
    (hb : s.phaccu_b < 2 ^ 32) (hp : s.phinc_b < 2 ^ 32) :
    wraps_b tcnt n s = (s.phaccu_b + n * s.phinc_b) / 2 ^ 32 := by
  induction n with
  | zero => simp [wraps_b]; omega
  | succ k ih =>
    obtain ⟨m, hm, hib, hacc⟩ := runTicks_phaccu_b tcnt k s hb
    rw [wraps_b, ih, hm]
    simp only [hib, hacc]
    have hk : (k + 1) * s.phinc_b = k * s.phinc_b + s.phinc_b := by ring
    rw [hk]
    generalize k * s.phinc_b = y
    split <;> omega

/-- A table read at an offset below 256 returns the entry at that offset. -/
theorem getElem?_SIN_TABLE {i : Nat} (h : i < 256) :
    SIN_TABLE[i]? = some (SIN_TABLE.getD i 0) :=
  pgm_read_byte_near_of_lt h

/-! ## The tick handler: one run -/

/-- C1: one run of the tick handler returns for every prior state and every
pair of timer readings; each channel's accumulator becomes the old accumulator
plus its increment modulo `2^32`, and the value written to the channel's
output register (`OCR2A` for A, `OCR2B` for B) is the `SIN_TABLE` entry at the
updated accumulator shifted right by 24, which is also the offset the handler
computes. -/
theorem tick_updates_accumulator_then_looks_up (t0 t1 : Nat) (s : State) :
    ∃ s', ISR t0 t1 s = some s' ∧
      s'.phaccu_a = (s.phaccu_a + s.phinc_a) % 2 ^ 32 ∧
      s'.phaccu_b = (s.phaccu_b + s.phinc_b) % 2 ^ 32 ∧
      SIN_TABLE[s'.phaccu_a >>> 24]? = some s'.OCR2A ∧
      SIN_TABLE[s'.phaccu_b >>> 24]? = some s'.OCR2B ∧
      accuIndex s'.phaccu_a = s'.phaccu_a >>> 24 ∧
      accuIndex s'.phaccu_b = s'.phaccu_b >>> 24 := by
  have ha : (s.phaccu_a + s.phinc_a) % 2 ^ 32 < 2 ^ 32 := Nat.mod_lt _ (by norm_num)
  have hb : (s.phaccu_b + s.phinc_b) % 2 ^ 32 < 2 ^ 32 := Nat.mod_lt _ (by norm_num)
  refine ⟨_, ISR_eq t0 t1 s, rfl, rfl, ?_, ?_, accuIndex_of_lt ha, accuIndex_of_lt hb⟩
  · show SIN_TABLE[((s.phaccu_a + s.phinc_a) % 2 ^ 32) >>> 24]? = some (SIN_TABLE.getD _ 0)
    rw [← accuIndex_of_lt ha]
    exact getElem?_SIN_TABLE (accuIndex_lt _)
  · show SIN_TABLE[((s.phaccu_b + s.phinc_b) % 2 ^ 32) >>> 24]? = some (SIN_TABLE.getD _ 0)
    rw [← accuIndex_of_lt hb]
    exact getElem?_SIN_TABLE (accuIndex_lt _)

/-! ## Phase wraparound over many ticks -/

/-- C2: `setup` clears both accumulators, and from any state whose accumulator
of a channel is 0 the handler run `n` times returns and leaves that
accumulator equal to `n` times the channel's increment modulo `2^32`.  With
increment 48,103,300 (the one `setup` gives channel A) one tick gives
accumulator 48,103,300 and table index 2, and 245 ticks give
`(245 * 48103300) mod 2^32 = 3195373908` although `245 * 48103300` exceeds
`2^32`. -/
theorem accumulator_after_n_ticks (tcnt : Nat → Nat × Nat) (n : Nat) (s : State) :
    (∃ s', runTicks tcnt n s = some s' ∧
      (s.phaccu_a = 0 → s'.phaccu_a = (n * s.phinc_a) % 2 ^ 32) ∧
      (s.phaccu_b = 0 → s'.phaccu_b = (n * s.phinc_b) % 2 ^ 32)) ∧
    ((setup s).phaccu_a = 0 ∧ (setup s).phaccu_b = 0 ∧ (setup s).phinc_a = 48103300) ∧
    (s.phaccu_a = 0 → s.phinc_a = 48103300 →
      (∃ s1, runTicks tcnt 1 s = some s1 ∧ s1.phaccu_a = 48103300 ∧
        s1.phaccu_a >>> 24 = 2 ∧ accuIndex s1.phaccu_a = 2) ∧
      (∃ s245, runTicks tcnt 245 s = some s245 ∧
        s245.phaccu_a = (245 * 48103300) % 2 ^ 32 ∧ s245.phaccu_a = 3195373908 ∧
        2 ^ 32 ≤ 245 * 48103300)) := by
  have h700 : FrequencyToPhaseIncrement 700 = 48103300 := by decide
  refine ⟨?_, ⟨rfl, rfl, h700⟩, ?_⟩
  · obtain ⟨m, hm, -, -, ha, hb, -, -⟩ := runTicks_eq tcnt n s
    refine ⟨m, hm, fun h0 => ?_, fun h0 => ?_⟩
    · rw [ha, h0]; split
      · subst_vars; simp
      · simp
    · rw [hb, h0]; split
      · subst_vars; simp
      · simp
  · intro h0 hp
    constructor
    · obtain ⟨m, hm, -, -, ha, -, -, -⟩ := runTicks_eq tcnt 1 s
      rw [h0, hp] at ha
      have hv : m.phaccu_a = 48103300 := by rw [ha]; decide
      exact ⟨m, hm, hv, by rw [hv]; decide, by rw [hv]; decide⟩
    · obtain ⟨m, hm, -, -, ha, -, -, -⟩ := runTicks_eq tcnt 245 s
      rw [h0, hp] at ha
      have hv : m.phaccu_a = 3195373908 := by rw [ha]; decide
      exact ⟨m, hm, by rw [hv]; decide, hv, by decide⟩

/-- The 700 Hz scenario at the state `setup` produces from the reset state:
both parts of the statement at 245 ticks. -/
theorem accumulator_after_n_ticks_witness :
    (setup State.reset).phaccu_a = 0 ∧ (setup State.reset).phaccu_b = 0 ∧
    (setup State.reset).phinc_a = 48103300 ∧
    (∃ s', runTicks (fun _ => (0, 0)) 245 (setup State.reset) = some s' ∧
      s'.phaccu_a = (245 * (setup State.reset).phinc_a) % 2 ^ 32 ∧
      s'.phaccu_b = (245 * (setup State.reset).phinc_b) % 2 ^ 32) ∧
    (∃ s245, runTicks (fun _ => (0, 0)) 245 (setup State.reset) = some s245 ∧
      s245.phaccu_a = (245 * 48103300) % 2 ^ 32 ∧ s245.phaccu_a = 3195373908 ∧
      2 ^ 32 ≤ 245 * 48103300) := by
  have h := accumulator_after_n_ticks (fun _ => (0, 0)) 245 (setup State.reset)
  obtain ⟨s', hs', ha, hb⟩ := h.1
  exact ⟨rfl, rfl, by decide, ⟨s', hs', ha rfl, hb rfl⟩, (h.2.2 rfl (by decide)).2⟩

/-! ## Table index bound -/

/-- C3: for every 32-bit accumulator value `a` the index `a >> 24` is at most
255 and is the offset the handler computes; `SIN_TABLE` has exactly 256
entries; the table read at that index succeeds; and for every state and timer
readings the handler returns a state, so neither of its two table reads is
out of range. -/
theorem table_index_in_range (a : Nat) (h : a < 2 ^ 32) :
    a >>> 24 < 256 ∧ accuIndex a = a >>> 24 ∧ SIN_TABLE.length = 256 ∧
    (pgm_read_byte_near (a >>> 24)).isSome = true ∧
    (∀ (t0 t1 : Nat) (s : State),
      (pgm_read_byte_near (accuIndex ((s.phaccu_a + s.phinc_a) % 2 ^ 32))).isSome = true ∧
      (pgm_read_byte_near (accuIndex ((s.phaccu_b + s.phinc_b) % 2 ^ 32))).isSome = true ∧
      (ISR t0 t1 s).isSome = true) := by
  have hlt : a >>> 24 < 256 := by
    rw [Nat.shiftRight_eq_div_pow]; omega
  refine ⟨hlt, accuIndex_of_lt h, SIN_TABLE_length, ?_, fun t0 t1 s => ⟨?_, ?_, ?_⟩⟩
  · rw [pgm_read_byte_near_of_lt hlt]; rfl
  · rw [pgm_read_byte_near_of_lt (accuIndex_lt _)]; rfl
  · rw [pgm_read_byte_near_of_lt (accuIndex_lt _)]; rfl
  · rw [ISR_eq]; rfl

/-- The largest 32-bit accumulator value indexes the last table entry. -/
theorem table_index_in_range_witness :
    4294967295 < 2 ^ 32 ∧ 4294967295 >>> 24 < 256 ∧ accuIndex 4294967295 = 4294967295 >>> 24 ∧
    (pgm_read_byte_near (4294967295 >>> 24)).isSome = true :=
  have h := table_index_in_range 4294967295 (by decide)
  ⟨by decide, h.1, h.2.1, h.2.2.2.1⟩

/-! ## Channel independence -/

/-- C4: a tick leaves both increments unchanged; for two states that agree on
`phaccu_b` and `phinc_b` (whatever else they hold, and whatever the timer
readings) the tick produces the same new `phaccu_b` and the same `OCR2B`; and
for two states that agree on `phaccu_a` and `phinc_a` it produces the same new
`phaccu_a` and the same `OCR2A`. -/
theorem tick_channels_independent (t0 t1 u0 u1 : Nat) (s r : State) :
    ∃ s' r', ISR t0 t1 s = some s' ∧ ISR u0 u1 r = some r' ∧
      s'.phinc_a = s.phinc_a ∧ s'.phinc_b = s.phinc_b ∧
      (s.phaccu_b = r.phaccu_b → s.phinc_b = r.phinc_b →
        s'.phaccu_b = r'.phaccu_b ∧ s'.OCR2B = r'.OCR2B) ∧
      (s.phaccu_a = r.phaccu_a → s.phinc_a = r.phinc_a →
        s'.phaccu_a = r'.phaccu_a ∧ s'.OCR2A = r'.OCR2A) := by
  refine ⟨_, _, ISR_eq t0 t1 s, ISR_eq u0 u1 r, rfl, rfl, ?_, ?_⟩
  · intro h1 h2
    constructor
    · show (s.phaccu_b + s.phinc_b) % 2 ^ 32 = (r.phaccu_b + r.phinc_b) % 2 ^ 32
      rw [h1, h2]
    · show SIN_TABLE.getD (accuIndex ((s.phaccu_b + s.phinc_b) % 2 ^ 32)) 0
        = SIN_TABLE.getD (accuIndex ((r.phaccu_b + r.phinc_b) % 2 ^ 32)) 0
      rw [h1, h2]
  · intro h1 h2
    constructor
    · show (s.phaccu_a + s.phinc_a) % 2 ^ 32 = (r.phaccu_a + r.phinc_a) % 2 ^ 32
      rw [h1, h2]
    · show SIN_TABLE.getD (accuIndex ((s.phaccu_a + s.phinc_a) % 2 ^ 32)) 0
        = SIN_TABLE.getD (accuIndex ((r.phaccu_a + r.phinc_a) % 2 ^ 32)) 0
      rw [h1, h2]

/-- Two states with different channel A data give the same channel B result,
and two states with different channel B data give the same channel A result. -/
theorem tick_channels_independent_witness :
    (stateOtherA.phaccu_a ≠ (setup State.reset).phaccu_a ∧
      ∃ s' r', ISR 3 9 stateOtherA = some s' ∧ ISR 200 210 (setup State.reset) = some r' ∧
        s'.phaccu_b = r'.phaccu_b ∧ s'.OCR2B = r'.OCR2B) ∧
    (stateOtherB.phaccu_b ≠ (setup State.reset).phaccu_b ∧
      ∃ s' r', ISR 3 9 stateOtherB = some s' ∧ ISR 200 210 (setup State.reset) = some r' ∧
        s'.phaccu_a = r'.phaccu_a ∧ s'.OCR2A = r'.OCR2A) := by
  refine ⟨⟨by decide, ?_⟩, ⟨by decide, ?_⟩⟩
  · obtain ⟨s', r', h1, h2, -, -, hB, -⟩ :=
      tick_channels_independent 3 9 200 210 stateOtherA (setup State.reset)
    exact ⟨s', r', h1, h2, hB rfl rfl⟩
  · obtain ⟨s', r', h1, h2, -, -, -, hA⟩ :=
      tick_channels_independent 3 9 200 210 stateOtherB (setup State.reset)
    exact ⟨s', r', h1, h2, hA rfl rfl⟩

/-! ## Periodicity of the index sequence -/

/-- The table offsets and samples after `n` ticks, in terms of the exact sum. -/
theorem runTicks_index (tcnt : Nat → Nat × Nat) (n : Nat) (s : State) :
    ∃ m, runTicks tcnt n s = some m ∧
      accuIndex m.phaccu_a = accuIndex (s.phaccu_a + n * s.phinc_a) ∧
      accuIndex m.phaccu_b = accuIndex (s.phaccu_b + n * s.phinc_b) ∧
      (0 < n → m.OCR2A = SIN_TABLE.getD (accuIndex (s.phaccu_a + n * s.phinc_a)) 0) ∧
      (0 < n → m.OCR2B = SIN_TABLE.getD (accuIndex (s.phaccu_b + n * s.phinc_b)) 0) := by
  obtain ⟨m, hm, -, -, ha, hb, hoa, hob⟩ := runTicks_eq tcnt n s
  have hia : accuIndex m.phaccu_a = accuIndex (s.phaccu_a + n * s.phinc_a) := by
    rw [ha]; split
    · subst_vars; simp
    · exact accuIndex_mod _
  have hib : accuIndex m.phaccu_b = accuIndex (s.phaccu_b + n * s.phinc_b) := by
    rw [hb]; split
    · subst_vars; simp
    · exact accuIndex_mod _
  exact ⟨m, hm, hia, hib, fun h => by rw [hoa h, hia], fun h => by rw [hob h, hib]⟩

theorem accuIndex_add_period (a n p : Nat) :
    accuIndex (a + (n + period p) * p) = accuIndex (a + n * p) := by
  rw [← accuIndex_mod (a + (n + period p) * p), add_period_mod, accuIndex_mod]

/-- C6: with `period p = 2^32 / gcd(2^32, p)` (which is 1 for `p = 0`), for
every state, every `n` and either channel, the handler run `n + period p`
times and the handler run `n` times both return, and end with the same table
index for that channel, `p` being the channel's increment; the sample written
to the channel's output register by tick `n + 1 + period p` equals the one
written by tick `n + 1`. -/
theorem index_sequence_periodic (tcnt tcnt' : Nat → Nat × Nat) (n : Nat) (s : State) :
    period 0 = 1 ∧
    (∃ s1 s2, runTicks tcnt (n + period s.phinc_a) s = some s1 ∧
      runTicks tcnt' n s = some s2 ∧
      accuIndex s1.phaccu_a = accuIndex s2.phaccu_a) ∧
    (∃ s1 s2, runTicks tcnt (n + period s.phinc_b) s = some s1 ∧
      runTicks tcnt' n s = some s2 ∧
      accuIndex s1.phaccu_b = accuIndex s2.phaccu_b) ∧
    (∃ s1 s2, runTicks tcnt (n + 1 + period s.phinc_a) s = some s1 ∧
      runTicks tcnt' (n + 1) s = some s2 ∧
      s1.phaccu_a = s2.phaccu_a ∧ s1.OCR2A = s2.OCR2A) ∧
    (∃ s1 s2, runTicks tcnt (n + 1 + period s.phinc_b) s = some s1 ∧
      runTicks tcnt' (n + 1) s = some s2 ∧
      s1.phaccu_b = s2.phaccu_b ∧ s1.OCR2B = s2.OCR2B) := by
  refine ⟨by decide, ?_, ?_, ?_, ?_⟩
  · obtain ⟨s1, h1, ia1, -, -, -⟩ := runTicks_index tcnt (n + period s.phinc_a) s
    obtain ⟨s2, h2, ia2, -, -, -⟩ := runTicks_index tcnt' n s
    exact ⟨s1, s2, h1, h2, by rw [ia1, ia2, accuIndex_add_period]⟩
  · obtain ⟨s1, h1, -, ib1, -, -⟩ := runTicks_index tcnt (n + period s.phinc_b) s
    obtain ⟨s2, h2, -, ib2, -, -⟩ := runTicks_index tcnt' n s
    exact ⟨s1, s2, h1, h2, by rw [ib1, ib2, accuIndex_add_period]⟩
  · obtain ⟨s1, h1, -, -, a1, -, -, -⟩ := runTicks_eq tcnt (n + 1 + period s.phinc_a) s
    obtain ⟨s2, h2, -, -, a2, -, -, -⟩ := runTicks_eq tcnt' (n + 1) s
    obtain ⟨_, h1', -, -, o1, -⟩ := runTicks_index tcnt (n + 1 + period s.phinc_a) s
    obtain ⟨_, h2', -, -, o2, -⟩ := runTicks_index tcnt' (n + 1) s
    rw [h1] at h1'; rw [h2] at h2'
    cases h1'; cases h2'
    rw [if_neg (by omega)] at a1 a2
    refine ⟨s1, s2, h1, h2, ?_, ?_⟩
    · rw [a1, a2, add_period_mod]
    · rw [o1 (by omega), o2 (by omega), accuIndex_add_period]
  · obtain ⟨s1, h1, -, -, -, b1, -, -⟩ := runTicks_eq tcnt (n + 1 + period s.phinc_b) s
    obtain ⟨s2, h2, -, -, -, b2, -, -⟩ := runTicks_eq tcnt' (n + 1) s
    obtain ⟨_, h1', -, -, -, o1⟩ := runTicks_index tcnt (n + 1 + period s.phinc_b) s
    obtain ⟨_, h2', -, -, -, o2⟩ := runTicks_index tcnt' (n + 1) s
    rw [h1] at h1'; rw [h2] at h2'
    cases h1'; cases h2'
    rw [if_neg (by omega)] at b1 b2
    refine ⟨s1, s2, h1, h2, ?_, ?_⟩
    · rw [b1, b2, add_period_mod]
    · rw [o1 (by omega), o2 (by omega), accuIndex_add_period]

/-! ## Shape of the sine table -/

/-- C7: `SIN_TABLE` has 256 entries; read cyclically it is non-decreasing over
indices 192..255 followed by 0..64 and non-increasing over indices 64..192;
entries half a period apart add up to `2 * 127`, the entries at `128 - i` and
`i` are equal for `0 ≤ i ≤ 128`, and the entries at 0 and 128 are 127; every
entry is at most 254, and both 0 and 254 occur. -/
theorem sin_table_shape :
    SIN_TABLE.length = 256 ∧
    List.Sorted (fun x y => x ≤ y) (SIN_TABLE.drop 192 ++ SIN_TABLE.take 65) ∧
    List.Sorted (fun x y => x ≥ y) ((SIN_TABLE.drop 64).take 129) ∧
    (∀ i : Fin 256, SIN_TABLE.getD i 0 + SIN_TABLE.getD ((i + 128) % 256) 0 = 2 * 127) ∧
    (∀ i : Fin 129, SIN_TABLE.getD (128 - i) 0 = SIN_TABLE.getD i 0) ∧
    SIN_TABLE.getD 0 0 = 127 ∧ SIN_TABLE.getD 128 0 = 127 ∧
    (∀ i : Fin 256, 0 ≤ SIN_TABLE.getD i 0 ∧ SIN_TABLE.getD i 0 ≤ 254) ∧
    0 ∈ SIN_TABLE ∧ 254 ∈ SIN_TABLE := by
  refine ⟨SIN_TABLE_length, ?_, ?_, ?_, ?_, ?_, ?_, ?_, ?_, ?_⟩
  · unfold List.Sorted; decide
  · unfold List.Sorted; decide
  · decide
  · decide
  · decide
  · decide
  · decide
  · decide
  · decide

/-! ## Frequency accuracy of the phase increment -/

/-- C5, as stated, fails at the 32-bit argument 62501: the 32-bit product
wraps to 38923, the realized frequency `38923 / 68719` is 0, and 0 is not
within one unit of 62501. -/
theorem realized_frequency_off_at_62501 :
    62501 < 2 ^ 32 ∧ FrequencyToPhaseIncrement 62501 = 38923 ∧
    FrequencyToPhaseIncrement 62501 / PHASE_STEPS_PER_HZ = 0 ∧
    ¬ (FrequencyToPhaseIncrement 62501 / PHASE_STEPS_PER_HZ ≤ 62501 + 1 ∧
       62501 ≤ FrequencyToPhaseIncrement 62501 / PHASE_STEPS_PER_HZ + 1) := by
  decide

/-- C5, amended: `PHASE_STEPS_PER_HZ` is `floor(2^32 / 62500) = 68719`; for
every target frequency `f ≤ 62500` the phase increment is the exact product
`68719 * f` and the realized frequency `FrequencyToPhaseIncrement f / 68719`
is `f` itself, hence within one unit of `f`; for `f = 700` the increment is
48,103,300, which recovers 700.  For larger `f` the realized frequency is not
within one unit of `f`. -/
theorem realized_frequency_exact_up_to_tick_rate (f : Nat) (h : f ≤ 62500) :
    PHASE_STEPS_PER_HZ = 2 ^ 32 / 62500 ∧ PHASE_STEPS_PER_HZ = 68719 ∧
    FrequencyToPhaseIncrement f = 68719 * f ∧
    FrequencyToPhaseIncrement f / PHASE_STEPS_PER_HZ = f ∧
    (FrequencyToPhaseIncrement f / PHASE_STEPS_PER_HZ ≤ f + 1 ∧
      f ≤ FrequencyToPhaseIncrement f / PHASE_STEPS_PER_HZ + 1) ∧
    FrequencyToPhaseIncrement 700 = 48103300 ∧
    FrequencyToPhaseIncrement 700 / PHASE_STEPS_PER_HZ = 700 ∧
    (∀ g : Nat, 62500 < g →
      ¬ (FrequencyToPhaseIncrement g / PHASE_STEPS_PER_HZ ≤ g + 1 ∧
         g ≤ FrequencyToPhaseIncrement g / PHASE_STEPS_PER_HZ + 1)) := by
  have hK : PHASE_STEPS_PER_HZ = 68719 := rfl
  have hF : FrequencyToPhaseIncrement f = 68719 * f := by
    unfold FrequencyToPhaseIncrement; rw [hK]; omega
  have hdiv : FrequencyToPhaseIncrement f / PHASE_STEPS_PER_HZ = f := by
    rw [hF, hK]; omega
  refine ⟨by decide, hK, hF, hdiv, ⟨by omega, by omega⟩, by decide, by decide, ?_⟩
  intro g hg
  unfold FrequencyToPhaseIncrement
  rw [hK]
  omega

/-- The 700 Hz request: the increment is 48,103,300 and recovers 700; the
request 62501 is not recovered. -/
theorem realized_frequency_exact_up_to_tick_rate_witness :
    700 ≤ 62500 ∧ FrequencyToPhaseIncrement 700 = 68719 * 700 ∧
    FrequencyToPhaseIncrement 700 / PHASE_STEPS_PER_HZ = 700 ∧
    62500 < 62501 ∧
    ¬ (FrequencyToPhaseIncrement 62501 / PHASE_STEPS_PER_HZ ≤ 62501 + 1 ∧
       62501 ≤ FrequencyToPhaseIncrement 62501 / PHASE_STEPS_PER_HZ + 1) :=
  have h := realized_frequency_exact_up_to_tick_rate 700 (by decide)
  ⟨by decide, h.2.2.1, h.2.2.2.1, by decide, h.2.2.2.2.2.2.2 62501 (by decide)⟩

/-- C10: `FrequencyToPhaseIncrement f` is `68719 * f` modulo `2^32`; it is the
exact product precisely when `f ≤ 62500`; for `f ≤ 62500` dividing it by 68719
gives back `f`; and for every `f` above 62500 the product has wrapped, so the
result is smaller than `68719 * f`. -/
theorem phase_increment_wraps_above_tick_rate (f : Nat) :
    FrequencyToPhaseIncrement f = (68719 * f) % 2 ^ 32 ∧
    (FrequencyToPhaseIncrement f = 68719 * f ↔ f ≤ 62500) ∧
    (f ≤ 62500 → FrequencyToPhaseIncrement f / 68719 = f) ∧
    (62500 < f → FrequencyToPhaseIncrement f < 68719 * f) := by
  have hF : FrequencyToPhaseIncrement f = (68719 * f) % 2 ^ 32 := rfl
  rw [hF]
  refine ⟨rfl, ⟨fun h => ?_, fun h => ?_⟩, fun h => ?_, fun h => ?_⟩ <;> omega

/-- The largest frequency without wrap, 62500, and the first one that wraps,
62501. -/
theorem phase_increment_wraps_above_tick_rate_witness :
    (62500 ≤ 62500 ∧ FrequencyToPhaseIncrement 62500 / 68719 = 62500) ∧
    (62500 < 62501 ∧ FrequencyToPhaseIncrement 62501 < 68719 * 62501) :=
  ⟨⟨by decide, (phase_increment_wraps_above_tick_rate 62500).2.2.1 (by decide)⟩,
   ⟨by decide, (phase_increment_wraps_above_tick_rate 62501).2.2.2 (by decide)⟩⟩

/-! ## The one-second scenario -/

/-- C8: over 62500 ticks, a channel whose accumulator starts at 0 with the
increment for 700 Hz wraps `floor(62500 * phinc / 2^32) = 699` times, within
one of 700, and one with the increment for 1900 Hz wraps 1899 times, within
one of 1900; `setup` establishes exactly these accumulators and increments.
Each count needs only the channel's own accumulator and increment: for any
32-bit increment and any `n` the count is `floor(n * phinc / 2^32)`, whatever
the rest of the state holds. -/
theorem one_second_cycle_counts (tcnt : Nat → Nat × Nat) (s : State) :
    ((setup s).phaccu_a = 0 ∧ (setup s).phaccu_b = 0 ∧
      (setup s).phinc_a = FrequencyToPhaseIncrement 700 ∧
      (setup s).phinc_b = FrequencyToPhaseIncrement 1900) ∧
    (s.phaccu_a = 0 → s.phinc_a = FrequencyToPhaseIncrement 700 →
      wraps_a tcnt 62500 s = 62500 * s.phinc_a / 2 ^ 32 ∧
      wraps_a tcnt 62500 s = 699 ∧
      wraps_a tcnt 62500 s ≤ 700 + 1 ∧ 700 ≤ wraps_a tcnt 62500 s + 1) ∧
    (s.phaccu_b = 0 → s.phinc_b = FrequencyToPhaseIncrement 1900 →
      wraps_b tcnt 62500 s = 62500 * s.phinc_b / 2 ^ 32 ∧
      wraps_b tcnt 62500 s = 1899 ∧
      wraps_b tcnt 62500 s ≤ 1900 + 1 ∧ 1900 ≤ wraps_b tcnt 62500 s + 1) ∧
    (∀ n : Nat, s.phaccu_a = 0 → s.phinc_a < 2 ^ 32 →
      wraps_a tcnt n s = n * s.phinc_a / 2 ^ 32) ∧
    (∀ n : Nat, s.phaccu_b = 0 → s.phinc_b < 2 ^ 32 →
      wraps_b tcnt n s = n * s.phinc_b / 2 ^ 32) := by
  have h700 : FrequencyToPhaseIncrement 700 = 48103300 := by decide
  have h1900 : FrequencyToPhaseIncrement 1900 = 130566100 := by decide
  have genA : ∀ n : Nat, s.phaccu_a = 0 → s.phinc_a < 2 ^ 32 →
      wraps_a tcnt n s = n * s.phinc_a / 2 ^ 32 := by
    intro n h0 hp
    rw [wraps_a_eq tcnt n s (by omega) hp, h0, Nat.zero_add]
  have genB : ∀ n : Nat, s.phaccu_b = 0 → s.phinc_b < 2 ^ 32 →
      wraps_b tcnt n s = n * s.phinc_b / 2 ^ 32 := by
    intro n h0 hp
    rw [wraps_b_eq tcnt n s (by omega) hp, h0, Nat.zero_add]
  refine ⟨⟨rfl, rfl, rfl, rfl⟩, ?_, ?_, genA, genB⟩
  · intro h0 hp
    have hw := genA 62500 h0 (by rw [hp, h700]; decide)
    have h699 : wraps_a tcnt 62500 s = 699 := by rw [hw, hp, h700]; decide
    exact ⟨hw, h699, by omega, by omega⟩
  · intro h0 hp
    have hw := genB 62500 h0 (by rw [hp, h1900]; decide)
    have h1899 : wraps_b tcnt 62500 s = 1899 := by rw [hw, hp, h1900]; decide
    exact ⟨hw, h1899, by omega, by omega⟩

/-- The state `setup` produces from reset, over one nominal second, and a
state with another channel B increment. -/
theorem one_second_cycle_counts_witness :
    ((setup State.reset).phaccu_a = 0 ∧
      (setup State.reset).phinc_a = FrequencyToPhaseIncrement 700 ∧
      wraps_a (fun _ => (0, 0)) 62500 (setup State.reset) = 699) ∧
    ((setup State.reset).phaccu_b = 0 ∧
      (setup State.reset).phinc_b = FrequencyToPhaseIncrement 1900 ∧
      wraps_b (fun _ => (0, 0)) 62500 (setup State.reset) = 1899) ∧
    (stateOtherB.phinc_b ≠ (setup State.reset).phinc_b ∧
      wraps_a (fun _ => (0, 0)) 62500 stateOtherB = 699) ∧
    ((setup State.reset).phinc_a < 2 ^ 32 ∧
      wraps_a (fun _ => (0, 0)) 245 (setup State.reset)
        = 245 * (setup State.reset).phinc_a / 2 ^ 32) ∧
    ((setup State.reset).phinc_b < 2 ^ 32 ∧
      wraps_b (fun _ => (0, 0)) 245 (setup State.reset)
        = 245 * (setup State.reset).phinc_b / 2 ^ 32) :=
  ⟨⟨rfl, rfl,
    ((one_second_cycle_counts (fun _ => (0, 0)) (setup State.reset)).2.1 rfl rfl).2.1⟩,
   ⟨rfl, rfl,
    ((one_second_cycle_counts (fun _ => (0, 0)) (setup State.reset)).2.2.1 rfl rfl).2.1⟩,
   ⟨by decide,
    ((one_second_cycle_counts (fun _ => (0, 0)) stateOtherB).2.1 rfl rfl).2.1⟩,
   ⟨by decide,
    (one_second_cycle_counts (fun _ => (0, 0)) (setup State.reset)).2.2.2.1 245 rfl
      (by decide)⟩,
   ⟨by decide,
    (one_second_cycle_counts (fun _ => (0, 0)) (setup State.reset)).2.2.2.2 245 rfl
      (by decide)⟩⟩

/-! ## The status reporter -/

/-- C9: one pass of `loop` sets `counter` to 0 when it is at least 62500 and
leaves it unchanged otherwise; when it resets the counter, the text it prints
carries the low bytes of `latest_start` and `latest_stop` as they were before
the pass; in both cases `phaccu_a`, `phaccu_b`, `phinc_a`, `phinc_b`,
`latest_start` and `latest_stop` (and both output registers) are unchanged. -/
theorem loop_frame (s : State) :
    (loop s).counter = (if 62500 ≤ s.counter then 0 else s.counter) ∧
    (loop s).Serial =
      (if 62500 ≤ s.counter then
        s.Serial ++ ["Timer tick ....  ", toString (s.latest_start % 256), " ",
          toString (s.latest_stop % 256) ++ "\r\n"]
       else s.Serial) ∧
    (loop s).phaccu_a = s.phaccu_a ∧ (loop s).phaccu_b = s.phaccu_b ∧
    (loop s).phinc_a = s.phinc_a ∧ (loop s).phinc_b = s.phinc_b ∧
    (loop s).latest_start = s.latest_start ∧ (loop s).latest_stop = s.latest_stop ∧
    (loop s).OCR2A = s.OCR2A ∧ (loop s).OCR2B = s.OCR2B := by
  unfold loop
  split <;> simp

end DualTone
